import Mathlib

/-!
Shallow embedding of the ristretto cache repository (dgraph-io/caffiene):
the expiration wheel (ttl file), the cache coordinator (cache.go), the
stores (store.go plus the conflict-aware sharded store exercised by the
store tests), the flag parser (z package) and the no-jemalloc allocator
shims (z/calloc_nojemalloc.go).  Go `uint64`/`int64` arithmetic is
modelled on `Nat`/`Int` with explicit reduction modulo `2 ^ 64`.
-/

namespace Ristretto

/-- Modulus of Go's `uint64` arithmetic. -/
def U64 : Nat := 2 ^ 64

/-- Two's-complement normalisation of a mathematical integer into the
`int64` range `[-2^63, 2^63)`; Go's `int64` addition and subtraction are
modelled as the mathematical operation followed by `wrap64`. -/
def wrap64 (x : Int) : Int := (x + 2 ^ 63) % 2 ^ 64 - 2 ^ 63

/-! ## Expiration wheel (ttl file)

A Go `time.Time` is modelled by its Unix-epoch second count `t : Int`
(sub-second precision is irrelevant here: the code only ever reads
`t.Second()`, the second within the current minute, which for an epoch
second count is `t % 60`).  The zero `time.Time` (`IsZero`) is modelled
by `Option.none`. -/

/-- `bucketSizeSecs` constant from the ttl file. -/
def bucketSizeSecs : Int := 5

/-- `timeToBucket` from the ttl file: `t.Second() / bucketSizeSecs`.
Go's `Time.Second` returns the second offset within the minute, in the
range `[0, 59]`; for epoch seconds `t` that is `t % 60` (`Int.emod`,
which is nonnegative, matching Go's always-nonnegative `Second`).  The
quotient of two nonnegative values is the same under Go's truncated and
Lean's floored division. -/
def timeToBucket (t : Int) : Int := (t % 60) / bucketSizeSecs

/-- A bucket (`type bucket map[uint64]uint64`): map from key to conflict,
modelled as an association list with unique keys (Go map upsert keeps
keys unique). -/
abbrev Bucket := List (Nat × Nat)

/-- Go map assignment `b[key] = conflict` on a bucket: replace the binding
if the key is present, otherwise append it. -/
def bucketAssign (b : Bucket) (key conflict : Nat) : Bucket :=
  if (b.find? (fun p => p.1 = key)).isSome then
    b.map (fun p => if p.1 = key then (key, conflict) else p)
  else
    b ++ [(key, conflict)]

/-- `expirationMap`: buckets, as a total function from bucket number to
bucket contents (`[]` plays the role of an absent bucket: creating an
empty bucket and leaving it absent are observationally identical in the
code). -/
structure ExpirationMap where
  buckets : Int → Bucket

/-- `newExpirationMap`. -/
def newExpirationMap : ExpirationMap := ⟨fun _ => []⟩

/-- `expirationMap.Add`: no-op when the expiration is the zero time,
otherwise insert `(key, conflict)` into the bucket
`timeToBucket expiration`. -/
def ExpirationMap.Add (m : ExpirationMap) (key conflict : Nat)
    (expiration : Option Int) : ExpirationMap :=
  match expiration with
  | none => m
  | some t =>
    let bucketNum := timeToBucket t
    ⟨fun b => if b = bucketNum then bucketAssign (m.buckets bucketNum) key conflict
              else m.buckets b⟩

/-- `expirationMap.Delete`: remove `key` from the bucket of `expiration`.
(The code does not test `IsZero` here; the zero time has `Second() = 0`
and lands in bucket `0`.) -/
def ExpirationMap.Delete (m : ExpirationMap) (key : Nat)
    (expiration : Option Int) : ExpirationMap :=
  let bucketNum := match expiration with
    | none => (0 : Int)
    | some t => timeToBucket t
  ⟨fun b => if b = bucketNum then (m.buckets bucketNum).filter (fun p => p.1 ≠ key)
            else m.buckets b⟩

/-- Result of `expirationMap.CleanUp`, instrumented with the trace of the
calls it makes on its `store`, `policy` and `onEvict` collaborators. -/
structure CleanUpResult (V : Type) where
  /-- the expiration map after the detached bucket is deleted -/
  em : ExpirationMap
  /-- the detached bucket (`keys := m.buckets[bucketNum]`) -/
  detached : Bucket
  /-- arguments of every `store.Del` call, in order -/
  storeDelCalls : List (Nat × Nat)
  /-- arguments of every `policy.Cost` call, in order -/
  policyCostCalls : List Nat
  /-- arguments of every `policy.Del` call, in order (the body of
  `CleanUp` contains no `policy.Del` call, so this trace is empty) -/
  policyDelCalls : List Nat
  /-- arguments of every `onEvict` invocation, in order -/
  onEvictCalls : List (Nat × Nat × V × Int)

/-- `expirationMap.CleanUp`.  The `store` and `policy` collaborators are
interfaces whose implementations live outside this repository slice, so
they enter as oracles: `storeDel key conflict` is the
`(conflict, value)` pair returned by `store.Del`, and `policyCost key`
is the cost returned by `policy.Cost`.  `onEvictSet` records whether the
`onEvict` callback is non-nil. -/
def ExpirationMap.CleanUp {V : Type} (m : ExpirationMap) (now : Int)
    (storeDel : Nat → Nat → Nat × V) (policyCost : Nat → Int)
    (onEvictSet : Bool) : CleanUpResult V :=
  let bucketNum := timeToBucket now - 1
  let keys := m.buckets bucketNum
  let em' : ExpirationMap := ⟨fun b => if b = bucketNum then [] else m.buckets b⟩
  { em := em'
    detached := keys
    storeDelCalls := keys.map (fun e => (e.1, 0))
    policyCostCalls := keys.map (fun e => e.1)
    policyDelCalls := []
    onEvictCalls :=
      if onEvictSet then
        keys.map (fun e => (e.1, e.2, (storeDel e.1 0).2, policyCost e.1))
      else [] }

/-! ## Cache coordinator (cache.go)

`Cache` holds a `Map` (string-keyed hash map), a `Policy`, a ring
`Buffer` and the `notify` callback.  The `Map`, `Policy` and `Buffer`
implementations are interfaces whose code is outside this repository
slice, so they are modelled from the spec:

* the data map is modelled as a function `String → Option V`
  (`Modelled from the spec:` the `Map` interface of cache.go / the
  sharded store section of the spec: `Get` returns the stored value,
  `Set` overwrites the binding, `Del` removes it);
* `buffer.Push` is modelled by recording the pushed element in a trace
  (`Modelled from the spec:` the ring buffer hands batches of pushed
  keys to the policy; the claims only concern which elements get
  pushed);
* `policy.Add` is an oracle: its reply `(victims, added)` is an input of
  the `Set` model; `policy.Res` and `policy.Del` are recorded in traces.

`used` and `size` are Go `uint64` fields; `atomic.AddUint64(&used, 1)`
and `atomic.AddUint64(&used, ^uint64(0))` are addition of `1` resp.
`2^64 - 1` modulo `2^64`. -/

/-- The mutable state of a `Cache` (cache.go), with values of type `V`
(Go `interface{}`); `notifySet` records whether `config.OnEvict` was
non-nil. -/
structure CacheModel (V : Type) where
  data : String → Option V
  used : Nat
  size : Nat
  notifySet : Bool

/-- Go map/`Map.Set` semantics on the modelled data map. -/
def mapSet {V : Type} (m : String → Option V) (key : String) (v : V) :
    String → Option V :=
  fun k => if k = key then some v else m k

/-- Go map/`Map.Del` semantics on the modelled data map. -/
def mapDel {V : Type} (m : String → Option V) (key : String) :
    String → Option V :=
  fun k => if k = key then none else m k

/-- `Config` from cache.go (`OnEvict` is kept as a presence flag). -/
structure Config where
  NumCounters : Nat
  MaxCost : Nat
  BufferItems : Nat
  OnEvictSet : Bool
  Log : Bool

/-- The observable outcome of `NewCache`: the fields the constructor
stores into the returned `Cache` (`size := config.NumCounters`) and the
arguments it passes to `newPolicy` and `NewBuffer`. -/
structure CacheInit where
  size : Nat
  policyNumCounters : Nat
  policyMaxCost : Nat
  bufferCapacity : Nat
  notifySet : Bool
  logWrapped : Bool

/-- `NewCache` from cache.go, on a non-nil config: if
`config.MaxCost == 0 && config.NumCounters != 0` then
`config.MaxCost = config.NumCounters`; then the cache is built
unconditionally — the function has no error or failure outcome. -/
def NewCache (config : Config) : CacheInit :=
  let maxCost :=
    if config.MaxCost = 0 ∧ config.NumCounters ≠ 0 then config.NumCounters
    else config.MaxCost
  { size := config.NumCounters
    policyNumCounters := config.NumCounters
    policyMaxCost := maxCost
    bufferCapacity := config.BufferItems
    notifySet := config.OnEvictSet
    logWrapped := config.Log }

/-- `NewCache` seen through its Go signature `func NewCache(config
*Config) *Cache`: a nil `config` crashes on the first field access
(`config.MaxCost`), modelled as `none`; otherwise the construction
always succeeds. -/
def NewCacheP (config : Option Config) : Option CacheInit :=
  match config with
  | none => none
  | some c => some (NewCache c)

/-- Result of `Cache.Get`: the trace of elements pushed into the ring
buffer, and the returned value. -/
structure GetResult (V : Type) where
  pushed : List String
  value : Option V

/-- `Cache.Get` from cache.go: `c.buffer.Push(Element(key))` followed by
`return c.data.Get(key)`.  The push happens unconditionally, before and
independently of the lookup. -/
def cacheGet {V : Type} (c : CacheModel V) (key : String) : GetResult V :=
  { pushed := [key], value := c.data key }

/-- Result of `Cache.Set`: the new cache state, the trace of `notify`
invocations, whether `policy.Res()` was called, and the returned
`([]string, bool)` pair. -/
structure SetResult (V : Type) where
  cache : CacheModel V
  notifyCalls : List String
  resCalled : Bool
  retVictims : List String
  retAdded : Bool

/-- `Cache.Set` from cache.go.  `policyReply` is the `(victims, added)`
pair returned by the `c.policy.Add(key, cost)` oracle.  When
`added = false` the function returns `(nil, false)` without touching the
cache.  Otherwise each victim is deleted from the data map, `used` is
decremented per victim (`AddUint64(&c.used, ^uint64(0))`, i.e. plus
`2^64 - 1` mod `2^64`) and `notify` is invoked on it when configured;
then the new binding is stored, `used` is incremented, and if the
incremented value equals `c.size`, `used` is reset to `c.size / 2` and
`c.policy.Res()` is invoked. -/
def cacheSet {V : Type} (c : CacheModel V) (policyReply : List String × Bool)
    (key : String) (v : V) : SetResult V :=
  let victims := policyReply.1
  let added := policyReply.2
  if added = false then
    { cache := c, notifyCalls := [], resCalled := false,
      retVictims := [], retAdded := false }
  else
    let data1 := victims.foldl (fun d victim => mapDel d victim) c.data
    let used1 := victims.foldl (fun u _ => (u + (U64 - 1)) % U64) c.used
    let notifyCalls := if c.notifySet then victims else []
    let data2 := mapSet data1 key v
    let used2 := (used1 + 1) % U64
    if used2 = c.size then
      { cache := { data := data2, used := c.size / 2, size := c.size,
                   notifySet := c.notifySet },
        notifyCalls := notifyCalls, resCalled := true,
        retVictims := victims, retAdded := true }
    else
      { cache := { data := data2, used := used2, size := c.size,
                   notifySet := c.notifySet },
        notifyCalls := notifyCalls, resCalled := false,
        retVictims := victims, retAdded := true }

/-- Result of `Cache.Del`: the new state plus the traces of `notify` and
`policy.Del` invocations. -/
structure DelResult (V : Type) where
  cache : CacheModel V
  notifyCalls : List String
  policyDelCalls : List String

/-- `Cache.Del` from cache.go: `c.policy.Del(key)` then
`c.data.Del(key)`; the body contains no `notify` invocation, so the
`notify` trace is empty. -/
def cacheDel {V : Type} (c : CacheModel V) (key : String) : DelResult V :=
  { cache := { data := mapDel c.data key, used := c.used, size := c.size,
               notifySet := c.notifySet },
    notifyCalls := [],
    policyDelCalls := [key] }

/-! ## Stores (store.go and the sharded store of the store tests) -/

/-- `syncMap.Get` from store.go (`sync.Map.Load` semantics: the stored
value, or nil). -/
def syncMapGet {V : Type} (m : Nat → Option V) (key : Nat) : Option V :=
  m key

/-- `syncMap.Set` from store.go: `m.Store(key, value)` — an
unconditional overwrite. -/
def syncMapSet {V : Type} (m : Nat → Option V) (key : Nat) (value : V) :
    Nat → Option V :=
  fun k => if k = key then some value else m k

/-- `syncMap.Del` from store.go: `m.Delete(key)`. -/
def syncMapDel {V : Type} (m : Nat → Option V) (key : Nat) :
    Nat → Option V :=
  fun k => if k = key then none else m k

/-- `storeItem`: the persisted record of the conflict-aware sharded
store (field set per the store tests and the spec data model; the
`expiration` field is irrelevant to the claims settled here). -/
structure StoreItem (V : Type) where
  key : Nat
  conflict : Nat
  value : V
  deriving DecidableEq

/-- An `item` as passed to the sharded store's `Set`. -/
structure Item (V : Type) where
  key : Nat
  conflict : Nat
  value : V

/-- The conflict-aware sharded store, collapsed to its logical content:
at most one `storeItem` per key (the 256-way sharding by `key & 0xFF`
only partitions this map and does not affect per-key semantics). -/
abbrev ShardedMap (V : Type) := Nat → Option (StoreItem V)

/-- Modelled from the spec: the implementation of the conflict-aware
sharded store (`newShardedMap` / `shardedMap.Get`) is not under `src/`;
only its tests are.  Per spec §4.3 and `TestStoreCollision`, `Get`
shared-locks the shard and reports a miss when the entry is absent or
the stored conflict differs from the probe's. -/
def shardedGet {V : Type} (m : ShardedMap V) (key conflict : Nat) :
    Option V :=
  match m key with
  | none => none
  | some it => if it.conflict = conflict then some it.value else none

/-- Modelled from the spec: the implementation of the conflict-aware
sharded store's `Set` is not under `src/`; only its tests are.
`TestStoreCollision` ("collision should prevent Set update") and spec
scenario S2 ("`set` with conflict=1 on same primary key must not
overwrite") require that `Set` leaves the map unchanged when an entry
for the key exists with a different conflict; otherwise it writes the
item. -/
def shardedSet {V : Type} (m : ShardedMap V) (i : Item V) : ShardedMap V :=
  match m i.key with
  | some it =>
    if it.conflict ≠ i.conflict then m
    else fun k => if k = i.key then some ⟨i.key, i.conflict, i.value⟩ else m k
  | none => fun k => if k = i.key then some ⟨i.key, i.conflict, i.value⟩ else m k

end Ristretto

namespace Z

/-! ## Flag parser (`parseFlag` in the z package)

Go strings are modelled as `List Char`.  The inputs handled by the flag
parser are flag strings; the Go library functions used by `parseFlag`
are embedded at the granularity they are used:

* `strings.Split(s, ";")` / `strings.SplitN(s, "=", 2)` with one-rune
  separators;
* `strings.TrimSpace` (`unicode.IsSpace` is embedded on its Latin-1
  portion — tab, newline, vertical tab, form feed, carriage return,
  space, NEL, NBSP; flag strings beyond Latin-1 whitespace are outside
  the model);
* `strings.ToLower` (embedded on its ASCII portion, the identity on
  other characters of the model's scope);
* `strings.ReplaceAll(k, "_", "-")`, which for one-rune patterns is a
  character map. -/

/-- `unicode.IsSpace`, restricted to Latin-1. -/
def isGoSpace (c : Char) : Bool :=
  c = ' ' || c = '\t' || c = '\n' || c.toNat = 11 || c.toNat = 12 ||
  c = '\r' || c.toNat = 0x85 || c.toNat = 0xA0

/-- `strings.TrimSpace`: drop leading and trailing whitespace. -/
def goTrimSpace (s : List Char) : List Char :=
  ((s.dropWhile isGoSpace).reverse.dropWhile isGoSpace).reverse

/-- `unicode.ToLower` on ASCII letters. -/
def goToLowerChar (c : Char) : Char :=
  if 'A' ≤ c ∧ c ≤ 'Z' then Char.ofNat (c.toNat + 32) else c

/-- `strings.SplitN(s, sep, 2)` for a one-rune separator: split at the
first occurrence only; a string without the separator yields a
one-element list. -/
def goSplitN2 (sep : Char) : List Char → List (List Char)
  | [] => [[]]
  | c :: cs =>
    if c = sep then [[], cs]
    else
      match goSplitN2 sep cs with
      | [k] => [c :: k]
      | [k, v] => [c :: k, v]
      | r => r

/-- The key normalisation applied by `parseFlag`:
`strings.TrimSpace`, then `strings.ToLower`, then
`strings.ReplaceAll(k, "_", "-")`. -/
def normalizeKey (k : List Char) : List Char :=
  ((goTrimSpace k).map goToLowerChar).map (fun c => if c = '_' then '-' else c)

/-- One iteration of `parseFlag`'s loop on the accumulated map
(`none` propagates the out-of-range panic of `splits[1]` when a
non-blank segment has no `=`). -/
def parseFlagStep (acc : Option (List Char → Option (List Char)))
    (kv : List Char) : Option (List Char → Option (List Char)) :=
  match acc with
  | none => none
  | some kvm =>
    if goTrimSpace kv = [] then some kvm
    else
      match goSplitN2 '=' kv with
      | [k, v] =>
        some (fun x => if x = normalizeKey k then some (goTrimSpace v) else kvm x)
      | _ => none

/-- `parseFlag` from the z package: split the flag string on `";"`,
skip segments that are blank after trimming, and for each remaining
segment `k=v` assign `kvm[normalizeKey k] = TrimSpace v` into the
result map (Go map assignment: a later segment overwrites an earlier
one with the same normalised key).  A non-blank segment without `=`
makes `splits[1]` panic, modelled as `none`. -/
def parseFlag (flag : List Char) : Option (List Char → Option (List Char)) :=
  (flag.splitOn ';').foldl parseFlagStep (some (fun _ => none))

/-- The claim's reading of one segment: skipped when blank after
trimming, otherwise the binding `(normalised key, trimmed value)` of a
`k=v` segment. -/
def segBinding (kv : List Char) : Option (List Char × List Char) :=
  if goTrimSpace kv = [] then none
  else
    match goSplitN2 '=' kv with
    | [k, v] => some (normalizeKey k, goTrimSpace v)
    | _ => none

/-- The claim's description of the whole map: the entry for `k` is the
value of the last segment whose normalised key is `k` ("the later one
wins"). -/
def lastBinding (flag : List Char) (k : List Char) : Option (List Char) :=
  ((((flag.splitOn ';').filterMap segBinding).reverse.find?
    (fun p => p.1 = k)).map (fun p => p.2))

/-! ## Allocator shims (z/calloc_nojemalloc.go)

A Go byte slice is modelled by its contents and capacity; the nil slice
(`CallocNoRef`'s return) is `none`, with `len(nil) = cap(nil) = 0`.
`numBytes` is a shared `int64` counter, its updates wrap in two's
complement (`Ristretto.wrap64`). -/

/-- A non-nil Go byte slice: contents (giving `len`) and capacity. -/
structure ByteSlice where
  data : List Nat
  cap : Nat
  deriving DecidableEq

/-- A Go `[]byte` value, `none` being the nil slice. -/
abbrev GoSlice := Option ByteSlice

/-- Go `cap` of a slice (`cap(nil) = 0`). -/
def sliceCap (b : GoSlice) : Nat :=
  match b with
  | none => 0
  | some s => s.cap

/-- `Calloc(n)`: bump `numBytes` by `int64(n)` and return
`make([]byte, n)`, a zeroed slice with length and capacity `n`
(a negative `n` makes `make` panic, modelled as `none`). -/
def Calloc (n : Int) (numBytes : Int) : Option (GoSlice × Int) :=
  if n < 0 then none
  else some (some ⟨List.replicate n.toNat 0, n.toNat⟩,
             Ristretto.wrap64 (numBytes + n))

/-- `CallocNoRef(n)`: always returns nil without touching `numBytes`. -/
def CallocNoRef (_ : Int) : GoSlice := none

/-- `Free(b)`: subtract `int64(cap(b))` from `numBytes`. -/
def Free (b : GoSlice) (numBytes : Int) : Int :=
  Ristretto.wrap64 (numBytes - (sliceCap b : Int))

end Z

/-! ## Theorems settling the claims -/

open Ristretto Z

/-- `wrap64` is the identity on the `int64` range. -/
theorem wrap64_eq_self {x : Int} (h1 : -(2 ^ 63) ≤ x) (h2 : x < 2 ^ 63) :
    wrap64 x = x := by
  unfold wrap64
  have h0 : (0 : Int) ≤ x + 2 ^ 63 := by omega
  have h3 : x + 2 ^ 63 < 2 ^ 64 := by omega
  rw [Int.emod_eq_of_lt h0 h3]
  omega

/-- C1: the expiration wheel does not bucket by absolute epoch windows:
`timeToBucket` is `t.Second() / 5`, the second-within-the-minute divided
by five.  The Unix instants `0` and `60` lie in different absolute
5-second windows of epoch time (`0 / 5 = 0` versus `60 / 5 = 12`), yet
`timeToBucket` sends both to bucket `0`, refuting the claimed
"same bucket iff same absolute 5-second window of epoch time". -/
theorem c1_timeToBucket_not_epoch_window :
    timeToBucket 0 = timeToBucket 60 ∧ timeToBucket 60 = 0 ∧
    (60 : Int) / 5 = 12 ∧ (0 : Int) / 5 ≠ (60 : Int) / 5 := by
  decide

/-- C2: an entry placed by `Add` with expiration instant `62` (second 2
of the second epoch minute, bucket `0`) is contained in the bucket that
`CleanUp` detaches at wall-clock time `6` (bucket `timeToBucket 6 - 1 =
0`) and is evicted there, although its expiration `62` is not earlier
than `6`: the detached bucket holds a non-expired entry, and the entry
is removed 56 seconds before its expiration instead of at most 10
seconds after it. -/
theorem c2_cleanUp_evicts_unexpired_entry :
    (((newExpirationMap.Add 1 0 (some 62)).CleanUp (V := Option Nat) 6
        (fun _ _ => (0, some 42)) (fun _ => 2) true).detached = [(1, 0)]) ∧
    (((newExpirationMap.Add 1 0 (some 62)).CleanUp (V := Option Nat) 6
        (fun _ _ => (0, some 42)) (fun _ => 2) true).onEvictCalls.map
          (fun e => e.1) = [1]) ∧
    ¬ ((62 : Int) < 6) := by
  refine ⟨by decide, by decide, by decide⟩

/-- C3 counterexample: `CleanUp` never calls `policy.Del`.  In a run at
time `6` whose detached bucket holds the entry `(7, 3)`, the trace of
`policy.Del` calls is empty even though the detached bucket is
non-empty (the code calls `policy.Cost`, not `policy.Del`). -/
theorem c3_cleanUp_no_policy_del :
    (((newExpirationMap.Add 7 3 (some 2)).CleanUp (V := Option Nat) 6
        (fun _ _ => (9, some 42)) (fun _ => 5) true).detached = [(7, 3)]) ∧
    (((newExpirationMap.Add 7 3 (some 2)).CleanUp (V := Option Nat) 6
        (fun _ _ => (9, some 42)) (fun _ => 5) true).policyDelCalls = []) ∧
    (((newExpirationMap.Add 7 3 (some 2)).CleanUp (V := Option Nat) 6
        (fun _ _ => (9, some 42)) (fun _ => 5) true).policyCostCalls = [7]) := by
  refine ⟨by decide, by decide, by decide⟩

/-- C3 (amended): with a non-nil `onEvict`, `CleanUp` detaches exactly
the bucket one behind the current time's bucket, removes it from the
expiration map (leaving every other bucket untouched), and for every
`(key, conflict)` in the detached bucket calls `store.Del(key, 0)`,
queries `policy.Cost(key)` and invokes `onEvict(key, conflict, value,
cost)`; it performs no `policy.Del` call. -/
theorem c3_cleanUp_behaviour {V : Type} (m : ExpirationMap) (now : Int)
    (storeDel : Nat → Nat → Nat × V) (policyCost : Nat → Int) :
    ((m.CleanUp now storeDel policyCost true).detached =
        m.buckets (timeToBucket now - 1)) ∧
    ((m.CleanUp now storeDel policyCost true).em.buckets
        (timeToBucket now - 1) = []) ∧
    (∀ b : Int, b ≠ timeToBucket now - 1 →
      (m.CleanUp now storeDel policyCost true).em.buckets b = m.buckets b) ∧
    ((m.CleanUp now storeDel policyCost true).storeDelCalls =
      (m.buckets (timeToBucket now - 1)).map (fun e => (e.1, 0))) ∧
    ((m.CleanUp now storeDel policyCost true).policyCostCalls =
      (m.buckets (timeToBucket now - 1)).map (fun e => e.1)) ∧
    ((m.CleanUp now storeDel policyCost true).onEvictCalls =
      (m.buckets (timeToBucket now - 1)).map
        (fun e => (e.1, e.2, (storeDel e.1 0).2, policyCost e.1))) ∧
    ((m.CleanUp now storeDel policyCost true).policyDelCalls = []) := by
  refine ⟨rfl, ?_, ?_, rfl, rfl, rfl, rfl⟩
  · simp [ExpirationMap.CleanUp]
  · intro b hb
    simp [ExpirationMap.CleanUp, hb]

/-- C3 witness: the amended behaviour evaluated in a concrete run. -/
theorem c3_cleanUp_behaviour_witness :
    (((newExpirationMap.Add 7 3 (some 2)).CleanUp (V := Option Nat) 6
        (fun _ _ => (9, some 42)) (fun _ => 5) true).em.buckets 5 =
      (newExpirationMap.Add 7 3 (some 2)).buckets 5) ∧
    (((newExpirationMap.Add 7 3 (some 2)).CleanUp (V := Option Nat) 6
        (fun _ _ => (9, some 42)) (fun _ => 5) true).em.buckets 0 = []) :=
  ⟨(c3_cleanUp_behaviour (newExpirationMap.Add 7 3 (some 2)) 6
      (fun _ _ => (9, some 42)) (fun _ => 5)).2.2.1 5 (by decide),
   (c3_cleanUp_behaviour (newExpirationMap.Add 7 3 (some 2)) 6
      (fun _ _ => (9, some 42)) (fun _ => 5)).2.1⟩

/-- C4 counterexample: the conflict-aware store's `Set` does not
overwrite on a conflict mismatch.  Starting from a store holding
`{key 1, conflict 0, value 1}` (the `TestStoreCollision` preload),
setting the item `{key 1, conflict 1, value 2}` leaves the stored entry
unchanged — the stored value and conflict do not become the item's, and
a `Get` with the original conflict still sees the old value. -/
theorem c4_sharded_set_no_overwrite_on_collision :
    (shardedSet (fun k => if k = 1 then some ⟨1, 0, (1 : Nat)⟩ else none)
        ⟨1, 1, 2⟩ 1 = some ⟨1, 0, 1⟩) ∧
    (shardedGet (shardedSet
        (fun k => if k = 1 then some ⟨1, 0, (1 : Nat)⟩ else none)
        ⟨1, 1, 2⟩) 1 0 = some 1) ∧
    some (⟨1, 0, 1⟩ : StoreItem Nat) ≠ some (⟨1, 1, 2⟩ : StoreItem Nat) := by
  refine ⟨by decide, by decide, by decide⟩

/-- C4 (amended): `syncMap.Set` (store.go) writes unconditionally; the
conflict-aware sharded store's `Set` writes the item when the key is
absent or the stored conflict matches the item's, and is a no-op when
the stored conflict differs (a mismatched conflict prevents the
overwrite). -/
theorem c4_set_semantics {V : Type} :
    (∀ (m : Nat → Option V) (key : Nat) (v : V),
      syncMapSet m key v key = some v) ∧
    (∀ (m : ShardedMap V) (i : Item V),
      (m i.key = none →
        shardedSet m i i.key = some ⟨i.key, i.conflict, i.value⟩) ∧
      (∀ it : StoreItem V, m i.key = some it → it.conflict = i.conflict →
        shardedSet m i i.key = some ⟨i.key, i.conflict, i.value⟩) ∧
      (∀ it : StoreItem V, m i.key = some it → it.conflict ≠ i.conflict →
        shardedSet m i = m)) := by
  refine ⟨fun m key v => by simp [syncMapSet], fun m i => ⟨?_, ?_, ?_⟩⟩
  · intro h
    simp [shardedSet, h]
  · intro it h hc
    simp [shardedSet, h, hc]
  · intro it h hc
    simp [shardedSet, h, hc]

/-- C4 witness: the amended semantics evaluated on concrete stores. -/
theorem c4_set_semantics_witness :
    (syncMapSet (V := Nat) (fun _ => none) 3 9 3 = some 9) ∧
    (shardedSet (V := Nat) (fun _ => none) ⟨1, 1, 2⟩ 1 = some ⟨1, 1, 2⟩) ∧
    (shardedSet (fun k => if k = 1 then some ⟨1, 0, (1 : Nat)⟩ else none)
        ⟨1, 1, 2⟩) = (fun k => if k = 1 then some ⟨1, 0, (1 : Nat)⟩ else none) :=
  ⟨(c4_set_semantics (V := Nat)).1 (fun _ => none) 3 9,
   ((c4_set_semantics (V := Nat)).2 (fun _ => none) ⟨1, 1, 2⟩).1 rfl,
   (((c4_set_semantics (V := Nat)).2
      (fun k => if k = 1 then some ⟨1, 0, (1 : Nat)⟩ else none) ⟨1, 1, 2⟩).2.2
      ⟨1, 0, 1⟩ (by decide) (by decide))⟩

/-- C5 counterexample: `NewCache` has no failure outcome.  With
`NumCounters = 0` (where the claim demands a `NumCountersZero` error)
the construction succeeds and returns a cache with `size = 0`. -/
theorem c5_newCache_succeeds_on_zero_counters :
    NewCacheP (some ⟨0, 7, 1, false, false⟩) =
      some { size := 0, policyNumCounters := 0, policyMaxCost := 7,
             bufferCapacity := 1, notifySet := false, logWrapped := false } := by
  rfl

/-- C5 (amended): `NewCache` validates nothing and never returns an
error: construction succeeds for every non-nil config (a nil config
crashes on field access rather than yielding a `NilConfig` error);
when `MaxCost` is `0` and `NumCounters` is not, `MaxCost` defaults to
`NumCounters`, and otherwise the configured values are used as given. -/
theorem c5_newCache_total (cfg : Config) :
    (NewCacheP (some cfg)).isSome = true ∧
    (cfg.MaxCost = 0 → cfg.NumCounters ≠ 0 →
      (NewCache cfg).policyMaxCost = cfg.NumCounters) ∧
    (cfg.MaxCost ≠ 0 → (NewCache cfg).policyMaxCost = cfg.MaxCost) ∧
    (cfg.MaxCost = 0 → cfg.NumCounters = 0 →
      (NewCache cfg).policyMaxCost = 0) ∧
    (NewCache cfg).size = cfg.NumCounters ∧
    (NewCache cfg).bufferCapacity = cfg.BufferItems ∧
    NewCacheP none = none := by
  refine ⟨rfl, ?_, ?_, ?_, rfl, rfl, rfl⟩
  · intro h0 h1
    simp [NewCache, h0, h1]
  · intro h0
    simp [NewCache, h0]
  · intro h0 h1
    simp [NewCache, h0, h1]

/-- The per-victim `uint64` decrement loop of `Cache.Set` computes exact
subtraction while the counter stays in range. -/
theorem foldl_dec_eq_sub {l : List String} :
    ∀ {u : Nat}, l.length ≤ u → u < U64 →
      l.foldl (fun u _ => (u + (U64 - 1)) % U64) u = u - l.length := by
  induction l with
  | nil => intro u _ _; rfl
  | cons a t ih =>
    intro u h1 h2
    have hu : 1 ≤ u := by simp at h1; omega
    have hstep : (u + (U64 - 1)) % U64 = u - 1 := by
      have h3 : u + (U64 - 1) = (u - 1) + U64 := by omega
      rw [h3, Nat.add_mod_right, Nat.mod_eq_of_lt (by omega)]
    rw [List.foldl_cons, hstep, ih (by simp at h1 ⊢; omega) (by omega)]
    simp
    omega

/-- C6 counterexample: with `NumCounters = 4`, six consecutive
successful `Set` calls (no victims) trigger `policy.Res` at the 4th call
and again at the 6th: only 2 increments separate the two resets, not
`NumCounters = 4`, because the trigger compares the `used` item counter
(restarted at `size / 2 = 2` by a reset) against `size`, not an
increment count since the previous reset. -/
theorem c6_res_retriggers_after_half_window :
    (cacheSet (V := Nat) ⟨fun _ => none, 0, 4, false⟩ ([], true) "a" 0).resCalled
        = false ∧
    ((cacheSet (V := Nat) ⟨fun _ => none, 3, 4, false⟩ ([], true) "d" 0).resCalled
        = true ∧
     (cacheSet (V := Nat) ⟨fun _ => none, 3, 4, false⟩ ([], true) "d" 0).cache.used
        = 2) ∧
    ((cacheSet (V := Nat) ⟨fun _ => none, 2, 4, false⟩ ([], true) "e" 0).resCalled
        = false ∧
     (cacheSet (V := Nat) ⟨fun _ => none, 2, 4, false⟩ ([], true) "e" 0).cache.used
        = 3) ∧
    ((cacheSet (V := Nat) ⟨fun _ => none, 3, 4, false⟩ ([], true) "f" 0).resCalled
        = true) ∧
    (2 : Nat) ≠ 4 := by
  refine ⟨by decide, ⟨by decide, by decide⟩, ⟨by decide, by decide⟩, by decide,
    by decide⟩

/-- C6 (amended): in `Cache.Set`, `policy.Res` is invoked exactly when
the `used` counter — incremented by one per successful `Set` and
decremented by one per evicted victim — equals `size` (`NumCounters`)
after the increment; at that point `used` is restarted at `size / 2`
(so the next trigger needs only `size / 2` further net additions), and
otherwise `used` just carries the net count.  The halving of the sketch
counters happens inside `policy.Res`, whose implementation is outside
this repository slice. -/
theorem c6_res_trigger_condition {V : Type} (c : CacheModel V)
    (victims : List String) (key : String) (v : V)
    (h1 : victims.length ≤ c.used) (h2 : c.used + 1 < U64) :
    ((cacheSet c (victims, true) key v).resCalled = true ↔
      c.used - victims.length + 1 = c.size) ∧
    ((cacheSet c (victims, true) key v).resCalled = true →
      (cacheSet c (victims, true) key v).cache.used = c.size / 2) ∧
    ((cacheSet c (victims, true) key v).resCalled = false →
      (cacheSet c (victims, true) key v).cache.used
        = c.used - victims.length + 1) := by
  have hd : victims.foldl (fun u _ => (u + (U64 - 1)) % U64) c.used
      = c.used - victims.length := foldl_dec_eq_sub h1 (by omega)
  have hm : (c.used - victims.length + 1) % U64 = c.used - victims.length + 1 :=
    Nat.mod_eq_of_lt (by omega)
  unfold cacheSet
  simp only [hd, hm]
  by_cases hc : c.used - victims.length + 1 = c.size
  · simp [hc]
  · simp [hc]

/-- C6 witness: the trigger condition evaluated at a concrete cache
state with one victim. -/
theorem c6_res_trigger_condition_witness :
    ((cacheSet (V := Nat) ⟨fun _ => none, 4, 4, false⟩ (["x"], true) "k" 0).resCalled
        = true ↔ (4 : Nat) - 1 + 1 = 4) ∧
    ((cacheSet (V := Nat) ⟨fun _ => none, 4, 4, false⟩ (["x"], true) "k" 0).resCalled
        = true →
      (cacheSet (V := Nat) ⟨fun _ => none, 4, 4, false⟩ (["x"], true) "k" 0).cache.used
        = 2) :=
  ⟨(c6_res_trigger_condition ⟨fun _ => none, 4, 4, false⟩ ["x"] "k" 0
      (by decide) (by decide)).1,
   (c6_res_trigger_condition ⟨fun _ => none, 4, 4, false⟩ ["x"] "k" 0
      (by decide) (by decide)).2.1⟩

/-- C7: `Cache.Get` pushes the key into the ring buffer unconditionally
— the push trace is `[key]` whatever the lookup outcome, so it happens
on both hit and miss — and the returned value is exactly what the data
map currently holds for the key. -/
theorem c7_get_pushes_and_returns_store_value {V : Type} (c : CacheModel V)
    (key : String) :
    (cacheGet c key).pushed = [key] ∧ (cacheGet c key).value = c.data key :=
  ⟨rfl, rfl⟩

/-- C8: with the `OnEvict` callback configured, a successful `Set`
invokes `notify` exactly once per victim (and an unsuccessful one not at
all), an explicit `Del` never invokes it, and `CleanUp` invokes
`onEvict` exactly once per `(key, conflict)` entry of the bucket it
processes. -/
theorem c8_onEvict_exactly_on_evictions {V W : Type} (c : CacheModel V)
    (victims : List String) (key dkey : String) (v : V)
    (hN : c.notifySet = true) (m : ExpirationMap) (now : Int)
    (storeDel : Nat → Nat → Nat × W) (policyCost : Nat → Int) :
    ((cacheSet c (victims, true) key v).notifyCalls = victims) ∧
    ((cacheSet c (victims, false) key v).notifyCalls = []) ∧
    ((cacheDel c dkey).notifyCalls = []) ∧
    ((m.CleanUp now storeDel policyCost true).onEvictCalls.map
        (fun e => (e.1, e.2.1)) = m.buckets (timeToBucket now - 1)) := by
  refine ⟨?_, rfl, rfl, ?_⟩
  · unfold cacheSet
    simp [hN]
    split <;> rfl
  · unfold ExpirationMap.CleanUp
    simp only [if_true, List.map_map]
    have hcomp : ((fun e : Nat × Nat × W × Int => (e.1, e.2.1)) ∘
        fun e : Nat × Nat => (e.1, e.2, (storeDel e.1 0).2, policyCost e.1)) = id := by
      funext e
      rfl
    rw [hcomp, List.map_id]

/-- C8 witness: the callback traces in a concrete run. -/
theorem c8_onEvict_exactly_on_evictions_witness :
    ((cacheSet (V := Nat) ⟨fun _ => none, 5, 9, true⟩ (["p", "q"], true) "k" 0).notifyCalls
        = ["p", "q"]) ∧
    ((cacheDel (V := Nat) ⟨fun _ => none, 5, 9, true⟩ "k").notifyCalls = []) ∧
    (((newExpirationMap.Add 1 0 (some 62)).CleanUp (V := Option Nat) 6
        (fun _ _ => (0, some 42)) (fun _ => 2) true).onEvictCalls.map
          (fun e => (e.1, e.2.1))
      = (newExpirationMap.Add 1 0 (some 62)).buckets (timeToBucket 6 - 1)) :=
  ⟨(c8_onEvict_exactly_on_evictions (W := Option Nat)
      ⟨fun _ => none, 5, 9, true⟩ ["p", "q"] "k" "k" 0 rfl
      (newExpirationMap.Add 1 0 (some 62)) 6
      (fun _ _ => (0, some 42)) (fun _ => 2)).1,
   (c8_onEvict_exactly_on_evictions (W := Option Nat)
      ⟨fun _ => none, 5, 9, true⟩ ["p", "q"] "k" "k" 0 rfl
      (newExpirationMap.Add 1 0 (some 62)) 6
      (fun _ _ => (0, some 42)) (fun _ => 2)).2.2.1,
   (c8_onEvict_exactly_on_evictions (W := Option Nat)
      ⟨fun _ => none, 5, 9, true⟩ ["p", "q"] "k" "k" 0 rfl
      (newExpirationMap.Add 1 0 (some 62)) 6
      (fun _ _ => (0, some 42)) (fun _ => 2)).2.2.2⟩

/-- Folding `parseFlagStep` from a propagated panic stays a panic. -/
theorem parseFlagStep_foldl_none (segs : List (List Char)) :
    segs.foldl parseFlagStep none = none := by
  induction segs with
  | nil => rfl
  | cons seg rest ih => rw [List.foldl_cons]; exact ih

/-- The accumulator of `parseFlag`'s loop: after folding the remaining
segments over an initial map `m0`, a key reads as the value of the last
surviving binding among those segments, falling back to `m0`. -/
theorem parseFlag_fold_lookup (segs : List (List Char)) :
    ∀ m0 m : List Char → Option (List Char),
      segs.foldl parseFlagStep (some m0) = some m →
      ∀ k, m k = ((segs.filterMap segBinding).reverse.find?
        (fun p => p.1 = k)).elim (m0 k) (fun p => some p.2) := by
  induction segs with
  | nil =>
    intro m0 m h k
    cases h
    rfl
  | cons seg rest ih =>
    intro m0 m h k
    rw [List.foldl_cons] at h
    by_cases hb : goTrimSpace seg = []
    · have hstep : parseFlagStep (some m0) seg = some m0 := by
        simp [parseFlagStep, hb]
      rw [hstep] at h
      have hsb : segBinding seg = none := by simp [segBinding, hb]
      simpa [List.filterMap_cons, hsb] using ih m0 m h k
    · cases h2 : goSplitN2 '=' seg with
      | nil =>
        have hstep : parseFlagStep (some m0) seg = none := by
          simp [parseFlagStep, hb, h2]
        rw [hstep, parseFlagStep_foldl_none] at h
        exact absurd h (by simp)
      | cons x xs =>
        cases xs with
        | nil =>
          have hstep : parseFlagStep (some m0) seg = none := by
            simp [parseFlagStep, hb, h2]
          rw [hstep, parseFlagStep_foldl_none] at h
          exact absurd h (by simp)
        | cons y ys =>
          cases ys with
          | cons z zs =>
            have hstep : parseFlagStep (some m0) seg = none := by
              simp [parseFlagStep, hb, h2]
            rw [hstep, parseFlagStep_foldl_none] at h
            exact absurd h (by simp)
          | nil =>
            have hstep : parseFlagStep (some m0) seg =
                some (fun t => if t = normalizeKey x then
                  some (goTrimSpace y) else m0 t) := by
              simp [parseFlagStep, hb, h2]
            rw [hstep] at h
            have hsb : segBinding seg =
                some (normalizeKey x, goTrimSpace y) := by
              simp [segBinding, hb, h2]
            have ihh := ih _ m h k
            rw [List.filterMap_cons, hsb, List.reverse_cons, List.find?_append]
            cases hf : (rest.filterMap segBinding).reverse.find?
                (fun p => p.1 = k) with
            | some p =>
              rw [hf] at ihh
              simpa using ihh
            | none =>
              rw [hf] at ihh
              simp only [Option.none_or]
              by_cases hk : normalizeKey x = k
              · subst hk
                rw [ihh]
                simp [List.find?_cons]
              · have hk' : ¬(k = normalizeKey x) := fun hh => hk hh.symm
                rw [ihh]
                simp [List.find?_cons, hk, hk']

/-- C9: for every flag string on which `parseFlag` completes (every
non-blank segment has a `=`), the parsed map sends a key `k` to the
trimmed value of the last segment whose key — trimmed, lowercased, with
underscores replaced by dashes — normalises to `k`, blank segments
being skipped; in particular when two segments normalise to the same
key the later one wins. -/
theorem c9_parseFlag_last_binding_wins (flag : List Char) (k : List Char)
    (h : (parseFlag flag).isSome = true) :
    (parseFlag flag).map (fun m => m k) = some (lastBinding flag k) := by
  obtain ⟨m, hm⟩ := Option.isSome_iff_exists.1 h
  rw [hm]
  have hfold := parseFlag_fold_lookup (flag.splitOn ';') (fun _ => none) m hm k
  rw [Option.map_some', hfold, lastBinding]
  cases ((flag.splitOn ';').filterMap segBinding).reverse.find?
      (fun p => p.1 = k) with
  | none => rfl
  | some p => rfl

/-- C9 witness: the parser evaluated on a concrete flag string in which
a blank segment is skipped and two segments normalise to the key
`a-b`; the later segment wins. -/
theorem c9_parseFlag_last_binding_wins_witness :
    ((parseFlag ("A_b=1; c = 2 ;;a-B= 3".toList)).map
        (fun m => m ("a-b".toList))
      = some (lastBinding ("A_b=1; c = 2 ;;a-B= 3".toList) ("a-b".toList))) ∧
    lastBinding ("A_b=1; c = 2 ;;a-B= 3".toList) ("a-b".toList)
      = some ("3".toList) :=
  ⟨c9_parseFlag_last_binding_wins ("A_b=1; c = 2 ;;a-B= 3".toList)
      ("a-b".toList) (by decide),
   by decide⟩

/-- C10: for `n ≥ 0` and an in-range counter, `Calloc(n)` returns an
all-zero byte slice of length and capacity `n` and bumps the shared
`numBytes` counter by `n`; `Free` of that slice subtracts its capacity,
so `Free(Calloc(n))` leaves the counter unchanged; `CallocNoRef` always
returns nil. -/
theorem c10_calloc_free_contract (n c : Int) (h0 : 0 ≤ n)
    (h1 : -(2 ^ 63) ≤ c) (h2 : c + n < 2 ^ 63) :
    Calloc n c = some (some ⟨List.replicate n.toNat 0, n.toNat⟩, c + n) ∧
    Free (some ⟨List.replicate n.toNat 0, n.toNat⟩) (c + n) = c ∧
    CallocNoRef n = none := by
  refine ⟨?_, ?_, rfl⟩
  · unfold Calloc
    rw [if_neg (by omega), wrap64_eq_self (by omega) h2]
  · unfold Free
    simp only [sliceCap]
    rw [Int.toNat_of_nonneg h0]
    have hc : c + n - n = c := by omega
    rw [hc, wrap64_eq_self h1 (by omega)]

/-- C10 witness: the allocator contract evaluated at `n = 5` with the
counter at `100`. -/
theorem c10_calloc_free_contract_witness :
    Calloc 5 100 = some (some ⟨List.replicate (5 : Int).toNat 0,
        (5 : Int).toNat⟩, 105) ∧
    Free (some ⟨List.replicate (5 : Int).toNat 0, (5 : Int).toNat⟩) 105
      = 100 ∧
    CallocNoRef 5 = none :=
  c10_calloc_free_contract 5 100 (by decide) (by decide) (by decide)

/-- C5 witness: the amended constructor behaviour at concrete configs. -/
theorem c5_newCache_total_witness :
    ((NewCacheP (some ⟨3, 0, 1, false, false⟩)).isSome = true) ∧
    ((NewCache ⟨3, 0, 1, false, false⟩).policyMaxCost = 3) ∧
    ((NewCache ⟨3, 8, 1, false, false⟩).policyMaxCost = 8) :=
  ⟨(c5_newCache_total ⟨3, 0, 1, false, false⟩).1,
   (c5_newCache_total ⟨3, 0, 1, false, false⟩).2.1 rfl (by decide),
   (c5_newCache_total ⟨3, 8, 1, false, false⟩).2.2.1 (by decide)⟩
